import Mathlib

/-!
Verification development for the gudgeon filtering DNS proxy.

The definitions below are a shallow embedding of the Go sources:

* `src/cache/cache.go`          — partitioned response cache with TTL decay
* `src/rule/store_sqlite.go`    — indexed rule store, `FindMatch`
* `src/resolver/dns_source.go`  — remote DNS source with back-off
* `src/engine/qlog.go`          — request pipeline (`performRequest`, CNAME chase)
* `src/unnamed/part_001`        — metrics recorder and metrics query

Time is modelled in whole seconds as `Nat`.  Go machine integers that matter
(`uint32` TTLs) stay within `Nat` because every operation in the sources
either lower-bounds them at 0 (Go subtraction is guarded by a comparison) or
upper-bounds them at the DNS max TTL, so no wrap-around can occur.
Pointer-typed Go values that a claim exercises at `nil` are embedded as
`Option`; Go panics are embedded with an explicit `GoResult` outcome.
-/

namespace Gudgeon

/-- DNS rcode constant from miekg/dns: success. -/
def rcodeSuccess : Nat := 0
/-- DNS rcode constant from miekg/dns: server failure. -/
def rcodeServerFailure : Nat := 2
/-- DNS rcode constant from miekg/dns: name error (NXDOMAIN). -/
def rcodeNameError : Nat := 3
/-- DNS rcode constant from miekg/dns: not implemented. -/
def rcodeNotImplemented : Nat := 4
/-- DNS rcode constant from miekg/dns: refused. -/
def rcodeRefused : Nat := 5
/-- DNS rcode constant from miekg/dns: bad name. -/
def rcodeBadName : Nat := 20

/-- DNS record type constant: A. -/
def typeA : Nat := 1
/-- DNS record type constant: CNAME. -/
def typeCNAME : Nat := 5
/-- DNS record type constant: None. -/
def typeNone : Nat := 0
/-- DNS record type constant: NULL. -/
def typeNULL : Nat := 10
/-- DNS record type constant: IXFR. -/
def typeIXFR : Nat := 251
/-- DNS record type constant: AXFR. -/
def typeAXFR : Nat := 252

/-- One question section entry of a DNS message (miekg/dns `Question`). -/
structure Question where
  qname : String
  qtype : Nat
  qclass : Nat
  deriving Repr, DecidableEq

/-- One resource record.  The header fields (name, type, ttl) are flattened
into the record; `rvalue` is the payload field of the concrete record type
(for example the address of an A record, or the target of a CNAME record) and
`none` models a Go `nil` payload field. -/
structure DnsRR where
  rname : String
  rrtype : Nat
  ttl : Nat
  rvalue : Option String
  deriving Repr, DecidableEq

/-- A DNS message (miekg/dns `Msg`), restricted to the header flags and
sections the gudgeon sources read or write. -/
structure Msg where
  id : Nat
  response : Bool
  opcode : Nat
  recursionDesired : Bool
  checkingDisabled : Bool
  truncated : Bool
  rcode : Nat
  question : List Question
  answer : List DnsRR
  ns : List DnsRR
  extra : List DnsRR
  deriving Repr, DecidableEq

/-! ### String helpers

The Go string operations the sources use (`strings.Split` on a single-rune
separator, `strings.TrimSpace`, `strings.ToLower`, `strconv.Itoa`,
`strconv.ParseUint`) are embedded structurally over the character list of a
string so that every definition evaluates inside the kernel. -/

/-- Whitespace trimmed by Go `strings.TrimSpace` (its ASCII cases, the only
ones that can occur in cache keys and source specifications). -/
def isGoSpace (c : Char) : Bool :=
  c = ' ' || c = '\t' || c = '\n' || c = '\r' || c = '\x0b' || c = '\x0c'

/-- Go `strings.TrimSpace`: drop whitespace from both ends. -/
def goTrimSpace (s : String) : String :=
  ⟨(((s.data.dropWhile isGoSpace).reverse).dropWhile isGoSpace).reverse⟩

/-- Split a character list at every occurrence of `sep`. -/
def splitCharList (sep : Char) : List Char → List (List Char)
  | [] => [[]]
  | c :: rest =>
    let r := splitCharList sep rest
    if c = sep then [] :: r
    else
      match r with
      | h :: t => (c :: h) :: t
      | [] => [[c]]

/-- Go `strings.Split` with a one-character separator: the pieces between
occurrences of the separator, in order; the empty string yields one empty
piece. -/
def goSplit (s : String) (sep : Char) : List String :=
  (splitCharList sep s.data).map String.mk

/-- Go `strings.ToLower` (ASCII case mapping). -/
def goToLower (s : String) : String :=
  ⟨s.data.map Char.toLower⟩

/-- Decimal digits of a positive number, most significant first; the first
argument is structural fuel, always called with at least the value itself. -/
def natDigits : Nat → Nat → List Char
  | 0, _ => []
  | _ + 1, 0 => []
  | fuel + 1, n => natDigits fuel (n / 10) ++ [Char.ofNat (48 + n % 10)]

/-- Go `strconv.Itoa` for natural numbers. -/
def natToString (n : Nat) : String :=
  if n = 0 then "0" else ⟨natDigits n n⟩

/-- The all-default DNS message, as produced by Go `new(dns.Msg)`. -/
def emptyMsg : Msg :=
  { id := 0, response := false, opcode := 0, recursionDesired := false,
    checkingDisabled := false, truncated := false, rcode := 0,
    question := [], answer := [], ns := [], extra := [] }

instance : Inhabited Msg := ⟨emptyMsg⟩

/-- Modelled from the spec: `util.IsEmptyResponse` (the util sources are not
under `src/`; only `src/util/dns_test.go` is).  Spec §3 invariant 5:
"`IsEmptyResponse` is true unless at least one answer record carries a
non-nil payload field (e.g., an A record with a non-nil address)", and the
unit test confirms that records in the `Ns` section never make a response
non-empty and that a `nil` message pointer is treated as empty. -/
def IsEmptyResponse : Option Msg → Bool
  | none => true
  | some m => !(m.answer.any (fun rr => rr.rvalue.isSome))

/-- Embedding of miekg/dns `Msg.SetReply` applied to a non-nil request: it
copies the request id and opcode, marks the message as a response, copies the
recursion-desired and checking-disabled bits for query opcodes, resets the
rcode to success, and installs the first question of the request (when the
request has one).  The Go method dereferences its argument unconditionally,
so callers that may pass a nil request are embedded separately. -/
def setReply (m : Msg) (request : Msg) : Msg :=
  { m with
    id := request.id
    response := true
    opcode := request.opcode
    recursionDesired :=
      if request.opcode = 0 then request.recursionDesired else m.recursionDesired
    checkingDisabled :=
      if request.opcode = 0 then request.checkingDisabled else m.checkingDisabled
    rcode := rcodeSuccess
    question :=
      match request.question with
      | q :: _ => [q]
      | [] => m.question }

/-! ## Cache (src/cache/cache.go) -/

/-- Maximum TTL accepted by the cache (`dnsMaxTtl`, 7 days in seconds). -/
def dnsMaxTtl : Nat := 604800

/-- A stored cache value (`envelope`): the copied response message and the
store timestamp, in seconds. -/
structure Envelope where
  message : Msg
  time : Nat
  deriving Repr, DecidableEq

/-- State of the `gocache` structure.  The go-cache backer is embedded as an
association list from string key to envelope (the periodic expiry sweep is
outside the claims); `partitionIdx` and `partitionIdxMap` mirror the fields
of the same names. -/
structure GoCache where
  backer : List (String × Envelope)
  partitionIdx : Nat
  partitionIdxMap : List (String × Nat)
  deriving Repr, DecidableEq

/-- A fresh cache, as built by `cache.New`. -/
def newCache : GoCache := { backer := [], partitionIdx := 0, partitionIdxMap := [] }

/-- Lookup in the embedded backer map. -/
def backerGet (backer : List (String × Envelope)) (key : String) : Option Envelope :=
  (backer.find? (fun kv => kv.fst = key)).map Prod.snd

/-- Set a key in the embedded backer map (overwriting any previous value). -/
def backerSet (backer : List (String × Envelope)) (key : String) (v : Envelope) :
    List (String × Envelope) :=
  (key, v) :: backer.filter (fun kv => kv.fst ≠ key)

/-- Rendering of a question class for the cache key
(miekg/dns `dns.Class(...).String()`); the exact text never influences a
claim, only its functional dependence on the class value does. -/
def classString (c : Nat) : String := "CLASS" ++ natToString c

/-- Rendering of a question type for the cache key
(miekg/dns `dns.Type(...).String()`); as with `classString` only functional
dependence on the type value matters. -/
def typeString (t : Nat) : String := "TYPE" ++ natToString t

/-- Embedding of `gocache.key`: assigns a fresh partition index on first
sight of a partition string (mutating the cache state) and concatenates the
partition index with every question name, class and type, separated by the
`|` delimiter; returns the trimmed key together with the updated state. -/
def cacheKey (c : GoCache) (partition : String) (questions : List Question) :
    String × GoCache :=
  let c1 :=
    if (c.partitionIdxMap.find? (fun kv => kv.fst = partition)).isSome then c
    else
      { c with
        partitionIdx := c.partitionIdx + 1
        partitionIdxMap := (partition, c.partitionIdx + 1) :: c.partitionIdxMap }
  let key :=
    if questions.length > 0 then
      let partitionIdx :=
        natToString (((c1.partitionIdxMap.find? (fun kv => kv.fst = partition)).map
          Prod.snd).getD 0)
      questions.foldl
        (fun key question =>
          (if key.length > 0 then key ++ "|" else key) ++
            question.qname ++ "|" ++ classString question.qclass ++ "|" ++
            typeString question.qtype)
        partitionIdx
    else ""
  (goTrimSpace key, c1)

/-- Embedding of `minTtl`: folds the minimum record TTL below the running
minimum. -/
def minTtl (currentMin : Nat) (records : List DnsRR) : Nat :=
  records.foldl (fun m value => min m value.ttl) currentMin

/-- The envelope TTL computed by `Store`: the minimum answer TTL capped at
`dnsMaxTtl`, falling back to the ns section when there are no answers and to
the extra section when there are no ns records either. -/
def envelopeTtl (response : Msg) : Nat :=
  let ttl := minTtl dnsMaxTtl response.answer
  if response.answer.length < 1 then
    let ttl := minTtl dnsMaxTtl response.ns
    if response.ns.length < 1 then minTtl dnsMaxTtl response.extra else ttl
  else ttl

/-- Embedding of `gocache.Store` at time `now`: refuses empty and truncated
responses, refuses an empty key, and stores a copy of the response in an
envelope only when the computed envelope TTL is positive. -/
def cacheStore (c : GoCache) (now : Nat) (partition : String)
    (request : Msg) (response : Msg) : Bool × GoCache :=
  if IsEmptyResponse (some response) || response.truncated then (false, c)
  else
    let kc := cacheKey c partition request.question
    let key := kc.fst
    let c1 := kc.snd
    if key = "" then (false, c1)
    else
      let ttl := envelopeTtl response
      if ttl > 0 then
        (true, { c1 with backer := backerSet c1.backer key ⟨response, now⟩ })
      else (false, c1)

/-- Embedding of `adjustTtls`: decrement every record TTL by the elapsed
delta, clamping at 0 (the Go code guards the `uint32` subtraction with a
comparison). -/
def adjustTtls (timeDelta : Nat) (records : List DnsRR) : List DnsRR :=
  records.map (fun value =>
    if value.ttl > timeDelta then { value with ttl := value.ttl - timeDelta }
    else { value with ttl := 0 })

/-- Embedding of `gocache.Query` at time `now`.  Faithful to the source
order of operations: the envelope message is copied first, the copy receives
the request id, and `adjustTtls` is then applied to the records of the
stored envelope message (`envelope.message.Answer` and friends) — not to the
returned copy.  The mutated envelope is written back to the backer map (Go
mutates it in place through the shared pointer).  Returns the message, the
hit flag and the updated cache state. -/
def cacheQuery (c : GoCache) (now : Nat) (partition : String) (request : Msg) :
    Option Msg × Bool × GoCache :=
  let kc := cacheKey c partition request.question
  let key := kc.fst
  let c1 := kc.snd
  if key = "" then (none, false, c1)
  else
    match backerGet c1.backer key with
    | none => (none, false, c1)
    | some envelope =>
      let delta := now - envelope.time
      let message := { envelope.message with id := request.id }
      let adjusted : Envelope :=
        { envelope with
          message :=
            { envelope.message with
              answer := adjustTtls delta envelope.message.answer
              ns := adjustTtls delta envelope.message.ns
              extra := adjustTtls delta envelope.message.extra } }
      (some message, true, { c1 with backer := backerSet c1.backer key adjusted })

/-! ## Rule store (src/rule/store_sqlite.go) -/

/-- Verdict of a rule lookup (`rule.Match`): none, allow or block. -/
inductive Match where
  | none
  | allow
  | block
  deriving Repr, DecidableEq

/-- Type of a rule list (`rule.ALLOW` / `rule.BLOCK`). -/
inductive ListType where
  | ALLOW
  | BLOCK
  deriving Repr, DecidableEq

/-- A configured list (`config.GudgeonList`).  The Go `ShortName()` accessor
is not under `src/` (the spec records only that the short name is derivable
from the name), so the short name is carried as a field. -/
structure GudgeonList where
  name : String
  shortName : String
  ltype : String
  deriving Repr, DecidableEq

/-- Modelled from the spec: `rule.ParseType` (the rule parsing sources are
not under `src/`).  Configuration documents the list type as requiring
"allow" or "block" and defaulting to block, so every string other than
allow parses as BLOCK. -/
def ParseType (t : String) : ListType :=
  if goToLower t = "allow" then ListType.ALLOW else ListType.BLOCK

/-- Drop a single trailing dot from a domain, as the engine does before rule
matching. -/
def stripDot (d : String) : String :=
  if d.data.getLast? = some '.' then ⟨d.data.dropLast⟩ else d

/-- Join domain labels back with dots. -/
def joinLabels : List String → String
  | [] => ""
  | [l] => l
  | l :: rest => l ++ "." ++ joinLabels rest

/-- All non-empty label suffixes of a label list, longest first. -/
def labelSuffixes : List String → List String
  | [] => []
  | l :: rest => joinLabels (l :: rest) :: labelSuffixes rest

/-- Modelled from the spec: `util.DomainList` (the util sources are not
under `src/`).  Spec §4.1: normalize the domain (strip the trailing dot,
lowercase) and build the suffix set — for `a.b.c.example.com` produce the
chain down to `com`.  An empty normalized domain has no labels and so no
suffixes. -/
def DomainList (domain : String) : List String :=
  let d := goToLower (stripDot domain)
  if d = "" then [] else labelSuffixes (goSplit d '.')

/-- The session rule database that `sqlStore` queries: the rows of the
`rules` table joined with `lists`, embedded as (list short name, rule text)
pairs. -/
abbrev RuleDb := List (String × String)

/-- Embedding of `sqlStore.foundInLists`: with no candidate lists or no
domain suffixes the lookup is skipped; otherwise the SQL query restricts the
rows to the candidate short names and the suffix set, and the row scan
returns the first row whose rule text is not empty. -/
def foundInLists (db : RuleDb) (lists : List GudgeonList) (domains : List String) :
    Bool × String × String :=
  if lists.length < 1 || domains.length < 1 then (false, "", "")
  else
    let shortNames := lists.map (fun l => l.shortName)
    let rows := db.filter (fun row =>
      shortNames.contains row.fst && domains.contains row.snd)
    match rows.find? (fun row => row.snd ≠ "") with
    | some row => (true, row.fst, row.snd)
    | none => (false, "", "")

/-- Go map semantics for `listmap`: the last list written under a short name
wins. -/
def listmapFind (lists : List GudgeonList) (shortName : String) : Option GudgeonList :=
  lists.reverse.find? (fun l => l.shortName = shortName)

/-- Embedding of `sqlStore.FindMatch`.  The store database handle is `none`
when the store was never initialized (the Go nil check); nil list pointers
inside the slice are not representable and are dropped by the Go loop
anyway.  Candidate lists are partitioned into allow lists and block lists
(everything not parsing as allow), allow lists are consulted first and a
block verdict is only possible when no allow list matched. -/
def FindMatch (store : Option RuleDb) (lists : List GudgeonList) (domain : String) :
    Match × Option GudgeonList × String :=
  match store with
  | none => (Match.none, Option.none, "")
  | some db =>
    let allowLists := lists.filter (fun l => ParseType l.ltype = ListType.ALLOW)
    let blockLists := lists.filter (fun l => ¬(ParseType l.ltype = ListType.ALLOW))
    let domains := DomainList domain
    let allowFound := foundInLists db allowLists domains
    if allowFound.fst then
      (Match.allow, listmapFind lists allowFound.snd.fst, allowFound.snd.snd)
    else
      let blockFound := foundInLists db blockLists domains
      if blockFound.fst then
        (Match.block, listmapFind lists blockFound.snd.fst, blockFound.snd.snd)
      else (Match.none, Option.none, "")

/-- A list `l` has a match for `domain` in the session database when some
non-empty rule row is keyed by the short name of `l` and equals one of the
domain suffixes.  (The row scan in `foundInLists` skips rows whose rule text
is empty, and rules loaded from list files are non-empty lines.) -/
def listHasMatch (db : RuleDb) (l : GudgeonList) (domain : String) : Prop :=
  ∃ r, (l.shortName, r) ∈ db ∧ r ∈ DomainList domain ∧ r ≠ ""

/-! ## Remote DNS source (src/resolver/dns_source.go) -/

/-- Back-off interval after a transport error, in seconds
(`backoffInterval`, 15s). -/
def backoffInterval : Nat := 15

/-- Mutable state of a `dnsSource`: the next-allowed time, when armed. -/
structure DnsSourceState where
  backoffTime : Option Nat
  deriving Repr, DecidableEq

/-- Outcome of one `dnsSource.Answer` call: the returned response and error,
whether the source attempted network contact with the peer (reached
`dnsSource.query`), and the state after the call. -/
structure AnswerOutcome where
  response : Option Msg
  errOut : Bool
  contacted : Bool
  state : DnsSourceState
  deriving Repr, DecidableEq

/-- Embedding of `dnsSource.Answer` at time `now`.  The network itself is a
parameter: `net` is what `dnsSource.query` would produce (`Except.error`
models a transport error).  During the back-off interval the call returns
(nil, nil) without touching the network and without clearing the stored
time; otherwise the stored time is cleared, requests that are nil or do not
desire recursion are answered (nil, nil) without contact, and a transport
error arms the back-off at `now + backoffInterval`. -/
def dnsAnswer (s : DnsSourceState) (now : Nat) (request : Option Msg)
    (net : Except Unit Msg) : AnswerOutcome :=
  match s.backoffTime with
  | some bt =>
    if now < bt then { response := none, errOut := false, contacted := false, state := s }
    else dnsAnswerAfterBackoff now request net
  | none => dnsAnswerAfterBackoff now request net
where
  /-- The body of `Answer` past the back-off guard, with `backoffTime`
  cleared. -/
  dnsAnswerAfterBackoff (now : Nat) (request : Option Msg) (net : Except Unit Msg) :
      AnswerOutcome :=
    match request with
    | none =>
      { response := none, errOut := false, contacted := false, state := ⟨none⟩ }
    | some req =>
      if !req.recursionDesired then
        { response := none, errOut := false, contacted := false, state := ⟨none⟩ }
      else
        match net with
        | Except.error _ =>
          { response := none, errOut := true, contacted := true,
            state := ⟨some (now + backoffInterval)⟩ }
        | Except.ok resp =>
          { response := some resp, errOut := false, contacted := true, state := ⟨none⟩ }

/-- Valid source protocols (`validProtocols`). -/
def validProtocols : List String := ["udp", "tcp", "tcp-tls"]

/-- Go `strconv.ParseUint(s, 10, 32)` as used by `newDNSSource`: decimal
digits only, rejecting the empty string, signs and values above the 32-bit
range (the caller turns any error into port 0). -/
def goParseUint32 (s : String) : Option Nat :=
  if s.data ≠ [] && s.data.all Char.isDigit then
    let n := s.data.foldl (fun acc c => acc * 10 + (c.toNat - 48)) 0
    if n < 2 ^ 32 then some n else none
  else none

/-- Protocol extraction step of `newDNSSource` (lines 47–53 of
`dns_source.go`): when the address contains `/` and the text after the first
`/` names a valid protocol, strip it off; otherwise leave the address whole
with an empty protocol.  `String.splitOn` yields at least two pieces exactly
when the delimiter occurs, matching the `strings.Contains` guard. -/
def parseProtocolSplit (sourceAddress : String) : String × String :=
  match goSplit sourceAddress '/' with
  | s0 :: s1 :: _ =>
    if validProtocols.contains (goToLower s1) then (s0, goToLower s1)
    else (sourceAddress, "")
  | _ => (sourceAddress, "")

/-- Host/port extraction step of `newDNSSource` (lines 56–71): when the
address contains `:` the host is the text before the first `:` and the port
is parsed from the text between the first and second `:` (a parse error
recovers to port 0); otherwise the whole address is the host. -/
def parseHostPort (sourceAddress : String) : String × Nat :=
  match goSplit sourceAddress ':' with
  | s0 :: s1 :: _ => (s0, (goParseUint32 s1).getD 0)
  | _ => (sourceAddress, 0)

/-- A constructed remote source (`dnsSource` after `newDNSSource`). -/
structure DnsSourceSpec where
  dnsServer : String
  port : Nat
  remoteAddress : String
  protocol : String
  deriving Repr, DecidableEq

/-- The host portion that `newDNSSource` hands to `net.ParseIP`: the source
address after protocol stripping and port splitting. -/
def hostPortion (sourceAddress : String) : String :=
  (parseHostPort (parseProtocolSplit sourceAddress).fst).fst

/-- Embedding of `newDNSSource`.  `parseIP` abstracts the Go standard
library predicate `net.ParseIP(...) != nil` (literal IPv4/IPv6 address
syntax).  Port 0 — never set or failed to parse — falls back to the default
port for the protocol, and the constructor returns nil exactly when the host
portion is not a literal IP address. -/
def newDNSSource (parseIP : String → Bool) (sourceAddress : String) :
    Option DnsSourceSpec :=
  let step1 := parseProtocolSplit sourceAddress
  let protocol := step1.snd
  let step2 := parseHostPort step1.fst
  let dnsServer := step2.fst
  let port0 := step2.snd
  let port := if port0 = 0 then (if protocol = "tcp-tls" then 853 else 53) else port0
  if parseIP dnsServer then
    some { dnsServer := dnsServer, port := port,
           remoteAddress := dnsServer ++ ":" ++ natToString port, protocol := protocol }
  else none

/-! ## Engine request pipeline (src/engine/qlog.go) -/

/-- Outcome of running a piece of Go code: a value, or an unwinding panic. -/
inductive GoResult (α : Type) where
  | ok (v : α)
  | panicked (msg : String)
  deriving Repr, DecidableEq

/-- The panic message of a Go nil-pointer dereference. -/
def nilDereference : String := "runtime error: invalid memory address or nil pointer dereference"

/-- Go semantics of the `recover()` call at the end of `performRequest`
(qlog.go line 814): the call is made in the ordinary function body, not
inside a deferred function, so by the Go specification it always returns
nil — and while a panic is unwinding the function the statement is never
executed at all.  The recovery branch is therefore dead code. -/
def goRecover : Option String := none

/-- The fields of `resolver.ResolutionResult` that the pipeline reads or
writes. -/
structure ResolutionResult where
  consumer : String
  blocked : Bool
  matchKind : Match
  matchListName : Option String
  matchRule : String
  message : String
  deriving Repr, DecidableEq

/-- The all-default resolution result (Go `&resolver.ResolutionResult{}`). -/
def emptyResult : ResolutionResult :=
  { consumer := "", blocked := false, matchKind := Match.none,
    matchListName := none, matchRule := "", message := "" }

/-- The consumer selected for the client address, as read by the pipeline. -/
structure ConsumerSpec where
  name : String
  block : Bool
  deriving Repr, DecidableEq

/-- Collaborators of `performRequest` for a fixed client address and
protocol: the selected consumer, the rule-store lookup
(`domainRuleMatchedForConsumer`, returning match kind, matched list name and
rule text) and the resolver graph
(`resolvers.AnswerMultiResolvers`, returning response, result and an error
flag).  Either collaborator may panic — that is the raw material of the
panic-safety claim. -/
structure Env where
  consumer : ConsumerSpec
  ruleMatch : String → GoResult (Match × Option String × String)
  answerMulti : Msg → GoResult (Option Msg × Option ResolutionResult × Bool)

/-- Result of one embedded pipeline step: `none` models a computation that
is still running (the fuel of the embedding ran out before the Go recursion
returned), `some` a Go return or a Go panic unwinding out of the function. -/
abbrev EngineStep (α : Type) := Option (GoResult α)

/-- Sequencing for `EngineStep`: exhausted fuel and panics propagate. -/
def stepBind (x : EngineStep α) (f : α → EngineStep β) : EngineStep β :=
  match x with
  | none => none
  | some (GoResult.panicked m) => some (GoResult.panicked m)
  | some (GoResult.ok v) => f v

/-- Sequencing a collaborator call into a pipeline step: a panic in the
collaborator unwinds. -/
def stepLift (x : GoResult α) (f : α → EngineStep β) : EngineStep β :=
  match x with
  | GoResult.panicked m => some (GoResult.panicked m)
  | GoResult.ok v => f v

/-- The query types `performRequest` refuses as not implemented
(`notImplemented` map). -/
def notImplementedTypes : List Nat := [typeNone, typeNULL, typeIXFR, typeAXFR]

/-- Embedding of `engine.handleCnameResolution`, parametrized by `recurse`,
the recursive `engine.performRequest` call it makes (qlog.go line 710) — the
call passes only the client address, the protocol and the fresh cname
request, so no visited set or recursion depth flows into it.  Guards mirror
lines 700–705: nil or answerless response, nil or questionless request, a
first answer that is not a CNAME, or a CNAME question type all yield nil.
Otherwise the request is re-issued with the first question name replaced by
the CNAME target (the Go type assertion `answer.(*dns.CNAME).Target` reads
the record payload), and a non-empty chased response has every answer name
overwritten with the original question name before `SetReply` on the
original request. -/
def handleCnameResolution
    (recurse : Option Msg → EngineStep (Msg × ResolutionResult))
    (originalRequest : Option Msg) (originalResponse : Option Msg) :
    EngineStep (Option Msg) :=
  match originalRequest, originalResponse with
  | some req, some resp =>
    match resp.answer, req.question with
    | firstAnswer :: _, firstQuestion :: restQuestions =>
      if firstAnswer.rrtype = typeCNAME ∧ firstQuestion.qtype ≠ typeCNAME then
        let newName := firstAnswer.rvalue.getD ""
        let cnameRequest :=
          { req with question := { firstQuestion with qname := newName } :: restQuestions }
        stepBind (recurse (some cnameRequest)) (fun out =>
          let cnameResponse := out.fst
          if !(IsEmptyResponse (some cnameResponse)) then
            let rewritten :=
              { cnameResponse with
                answer := cnameResponse.answer.map
                  (fun a => { a with rname := firstQuestion.qname }) }
            some (GoResult.ok (some (setReply rewritten req)))
          else some (GoResult.ok none))
      else some (GoResult.ok none)
    | _, _ => some (GoResult.ok none)
  | _, _ => some (GoResult.ok none)

/-- The tail of `performRequest` (qlog.go lines 799–834): default the
response when nil, normalize an empty response to NXDOMAIN via `SetReply`,
run the (dead) recovery branch, default the result when nil and stamp the
consumer name. -/
def performFinish (consumer : ConsumerSpec) (req : Msg)
    (respOpt : Option Msg) (resOpt : Option ResolutionResult) :
    Msg × ResolutionResult :=
  let response := respOpt.getD emptyMsg
  let response :=
    if IsEmptyResponse (some response) then
      { setReply response req with rcode := rcodeNameError }
    else response
  -- recovery branch; unreachable because goRecover is definitionally none
  let response :=
    match goRecover with
    | some _ => { setReply emptyMsg req with rcode := rcodeServerFailure }
    | none => response
  let result :=
    match goRecover with
    | some recovery => { (resOpt.getD emptyResult) with message := recovery }
    | none => resOpt.getD emptyResult
  let result := { result with consumer := consumer.name }
  (response, result)

/-- Embedding of `engine.performRequest` (qlog.go lines 726–835) with a fuel
bound on the CNAME-chase recursion.  A nil request reaches
`response.SetReply(request)` inside the validation branch, and miekg/dns
`SetReply` dereferences its argument (`dns.Id = request.Id`), so the call
panics; there is no deferred recover, so the panic unwinds.  A request with
no questions is refused; an oversized or empty first question name is
answered BadName; an unimplemented query type is answered NotImplemented; a
blocked consumer gets a refused reply (whose rcode `SetReply` then resets);
otherwise the rule store and the resolvers run, a CNAME answer triggers the
chase through a fresh recursive `performRequest`, and the tail of the
function normalizes the response. -/
def performRequestFuel (env : Env) : Nat → Option Msg → EngineStep (Msg × ResolutionResult)
  | 0, _ => none
  | fuel + 1, request =>
    let consumer := env.consumer
    let result0 : ResolutionResult := { emptyResult with consumer := consumer.name }
    match request with
    | none => some (GoResult.panicked nilDereference)
    | some req =>
      match req.question with
      | [] =>
        some (GoResult.ok ({ setReply emptyMsg req with rcode := rcodeRefused }, result0))
      | q0 :: _ =>
        if q0.qname.length < 1 ∨ q0.qname.length > 255 then
          some (GoResult.ok ({ setReply emptyMsg req with rcode := rcodeBadName }, result0))
        else if q0.qtype ∈ notImplementedTypes then
          some (GoResult.ok ({ setReply emptyMsg req with rcode := rcodeNotImplemented }, result0))
        else
          let domain := q0.qname
          if consumer.block then
            let result1 := { result0 with blocked := true }
            -- Rcode is assigned Refused first, then SetReply resets it
            let response := setReply { emptyMsg with rcode := rcodeRefused } req
            some (GoResult.ok (performFinish consumer req (some response) (some result1)))
          else
            stepLift (env.ruleMatch domain) (fun found =>
              let mtch := found.fst
              let result1 :=
                if mtch ≠ Match.none then
                  { result0 with
                    matchKind := mtch
                    matchListName := found.snd.fst
                    matchRule := found.snd.snd }
                else result0
              if mtch ≠ Match.block then
                stepLift (env.answerMulti req) (fun answered =>
                  let respOpt := answered.fst
                  let resOpt := answered.snd.fst
                  let errFlag := answered.snd.snd
                  if errFlag then
                    -- resolution error: logged, no CNAME chase
                    performFinishStep consumer req respOpt resOpt
                  else
                    stepBind
                      (handleCnameResolution (performRequestFuel env fuel)
                        (some req) respOpt)
                      (fun cnameResponse =>
                        let respOpt :=
                          if !(IsEmptyResponse cnameResponse) then cnameResponse
                          else respOpt
                        performFinishStep consumer req respOpt resOpt))
              else
                performFinishStep consumer req none (some result1))
where
  -- wrap the common function tail as a completed step
  performFinishStep (consumer : ConsumerSpec) (req : Msg)
      (respOpt : Option Msg) (resOpt : Option ResolutionResult) :
      EngineStep (Msg × ResolutionResult) :=
    some (GoResult.ok (performFinish consumer req respOpt resOpt))

/-- Termination of the embedded pipeline on a given request: some fuel
suffices for the Go recursion to return (or panic). -/
def performRequestTerminates (env : Env) (request : Option Msg) : Prop :=
  ∃ fuel, (performRequestFuel env fuel request).isSome

/-! ## Metrics recorder queue and metrics readback (src/unnamed/part_001) -/

/-- A Go buffered channel: a capacity and the buffered items. -/
structure GoChan (α : Type) where
  cap : Nat
  buf : List α
  deriving Repr, DecidableEq

/-- Outcome of a channel send with no receiver ready: the value is buffered,
or the sending goroutine blocks. -/
inductive SendOutcome (α : Type) where
  | sent (c : GoChan α)
  | blocked
  deriving Repr, DecidableEq

/-- Go buffered-channel send semantics with no ready receiver: append when
the buffer has room, otherwise block the sender. -/
def chanSend (c : GoChan α) (x : α) : SendOutcome α :=
  if c.buf.length < c.cap then SendOutcome.sent ⟨c.cap, c.buf ++ [x]⟩
  else SendOutcome.blocked

/-- Go buffered-channel receive: take the oldest buffered item, if any. -/
def chanRecv (c : GoChan α) : Option (α × GoChan α) :=
  match c.buf with
  | [] => none
  | x :: rest => some (x, ⟨c.cap, rest⟩)

/-- Capacity of the recorder channel
(`make(chan *metricsInfo, 100000)` in `metrics.New`). -/
def recorderCapacity : Nat := 100000

/-- Payload of an enqueued record (`metricsInfo`); its fields do not affect
the queue behaviour and are kept opaque. -/
structure MetricsInfo where
  address : String
  deriving Repr, DecidableEq

/-- Embedding of `metrics.RecordQueryMetrics`: builds the `metricsInfo`
message and performs a plain channel send on `metricsInfoChan` — the
statement `metrics.metricsInfoChan <- msg` has no surrounding
select/default, so a full buffer blocks the caller rather than dropping. -/
def RecordQueryMetrics (c : GoChan MetricsInfo) (msg : MetricsInfo) :
    SendOutcome MetricsInfo :=
  chanSend c msg

/-- One row of the `metrics` table
(`metrics(FromTime, AtTime, MetricsJson, IntervalSeconds)`). -/
structure MetricsRow where
  fromTime : Nat
  atTime : Nat
  metricsJson : String
  intervalSeconds : Nat
  deriving Repr, DecidableEq

/-- The `MetricsEntry` struct as filled by the row scan; the JSON values map
is opaque to the claims and omitted. -/
structure MetricsEntry where
  fromTime : Nat
  atTime : Nat
  intervalSeconds : Nat
  deriving Repr, DecidableEq

/-- Embedding of `metrics.insert` executed at `currentTime` with the stored
`lastInsert` mark: appends a row whose FromTime is `lastInsert`, whose
AtTime is `currentTime` and whose interval is the elapsed seconds. -/
def metricsInsert (rows : List MetricsRow) (lastInsert currentTime : Nat)
    (jsonStr : String) : List MetricsRow :=
  rows ++ [{ fromTime := lastInsert, atTime := currentTime,
             metricsJson := jsonStr, intervalSeconds := currentTime - lastInsert }]

/-- Insert a row into a list sorted by AtTime (ascending), keeping order. -/
def insertByAtTime (row : MetricsRow) : List MetricsRow → List MetricsRow
  | [] => [row]
  | r :: rest =>
    if row.atTime ≤ r.atTime then row :: r :: rest else r :: insertByAtTime row rest

/-- Sort rows by AtTime ascending (the SQL `ORDER BY AtTime ASC`). -/
def sortByAtTime (rows : List MetricsRow) : List MetricsRow :=
  rows.foldr insertByAtTime []

/-- The row scan of `metrics.query` (part_001 line 420):
`rows.Scan(&me.AtTime, &me.FromTime, &metricsJsonString, &me.IntervalSeconds)`
against `SELECT FromTime, AtTime, MetricsJson, IntervalSeconds` — the first
column (FromTime) lands in the entry AtTime field and the second column
(AtTime) lands in the entry FromTime field. -/
def scanMetricsEntry (row : MetricsRow) : MetricsEntry :=
  { atTime := row.fromTime, fromTime := row.atTime,
    intervalSeconds := row.intervalSeconds }

/-- Embedding of `metrics.query`/`Query`: select the rows whose window is
inside `[start, endT]` (`FromTime >= start AND AtTime <= endT`), order them
by AtTime ascending, and scan each row into a `MetricsEntry`. -/
def metricsQuery (rows : List MetricsRow) (start endT : Nat) : List MetricsEntry :=
  (sortByAtTime (rows.filter (fun r => start ≤ r.fromTime && r.atTime ≤ endT))).map
    scanMetricsEntry

/-! ## Concrete inputs used by the evaluations below -/

/-- An A query for example.com with recursion desired. -/
def cacheReq : Msg :=
  { emptyMsg with
    id := 7
    recursionDesired := true
    question := [⟨"example.com.", 1, 1⟩] }

/-- An A response for example.com with one answer of TTL 60. -/
def cacheResp : Msg :=
  { emptyMsg with
    id := 42
    response := true
    question := [⟨"example.com.", 1, 1⟩]
    answer := [⟨"example.com.", 1, 60, some "127.0.0.1"⟩] }

/-- The cache after storing `cacheResp` for `cacheReq` at time 0. -/
def storedCache : GoCache :=
  (cacheStore newCache 0 "default" cacheReq cacheResp).snd

/-- The same query re-issued later with a different message id. -/
def queryReq : Msg := { cacheReq with id := 9 }

/-- A truncated response carrying an answer. -/
def truncatedResp : Msg :=
  { cacheResp with truncated := true }

/-- A non-blocked consumer. -/
def okConsumer : ConsumerSpec := { name := "default", block := false }

/-- An engine environment whose resolver graph panics while resolving, as a
buggy source would (for example a write to a nil map). -/
def envPanic : Env :=
  { consumer := okConsumer
    ruleMatch := fun _ => GoResult.ok (Match.none, none, "")
    answerMulti := fun _ => GoResult.panicked "assignment to entry in nil map" }

/-- An engine environment that resolves nothing and panics nowhere. -/
def envBase : Env :=
  { consumer := okConsumer
    ruleMatch := fun _ => GoResult.ok (Match.none, none, "")
    answerMulti := fun _ => GoResult.ok (none, some emptyResult, false) }

/-- A well-formed A query used to drive the pipeline into resolution. -/
def panicReq : Msg :=
  { emptyMsg with
    id := 7
    recursionDesired := true
    question := [⟨"example.com.", typeA, 1⟩] }

/-- A request with an empty question section. -/
def noQuestionMsg : Msg := { emptyMsg with id := 3 }

/-- A one-record CNAME response from `fromN` to `toN`. -/
def cnameMsg (fromN toN : String) : Msg :=
  { emptyMsg with
    response := true
    answer := [⟨fromN, typeCNAME, 300, some toN⟩] }

/-- An engine environment whose upstream serves two mutually-referencing
CNAME records: x is an alias of y and y is an alias of x. -/
def envLoop : Env :=
  { consumer := okConsumer
    ruleMatch := fun _ => GoResult.ok (Match.none, none, "")
    answerMulti := fun req =>
      match req.question with
      | q :: _ =>
        if q.qname = "x." then GoResult.ok (some (cnameMsg "x." "y."), some emptyResult, false)
        else if q.qname = "y." then GoResult.ok (some (cnameMsg "y." "x."), some emptyResult, false)
        else GoResult.ok (none, some emptyResult, false)
      | [] => GoResult.ok (none, some emptyResult, false) }

/-- An A query for x (the first half of the CNAME cycle). -/
def reqX : Msg :=
  { emptyMsg with
    id := 5
    recursionDesired := true
    question := [⟨"x.", typeA, 1⟩] }

/-- An A query for y (the second half of the CNAME cycle). -/
def reqY : Msg :=
  { emptyMsg with
    id := 5
    recursionDesired := true
    question := [⟨"y.", typeA, 1⟩] }

/-- An engine environment where foo is a CNAME for bar and bar resolves to
an address, mirroring the end-to-end CNAME-chase scenario of the spec. -/
def envChase : Env :=
  { consumer := okConsumer
    ruleMatch := fun _ => GoResult.ok (Match.none, none, "")
    answerMulti := fun req =>
      match req.question with
      | q :: _ =>
        if q.qname = "foo." then
          GoResult.ok (some (cnameMsg "foo." "bar."), some emptyResult, false)
        else if q.qname = "bar." then
          GoResult.ok
            (some { emptyMsg with
                      response := true
                      answer := [⟨"bar.", typeA, 60, some "10.0.0.1"⟩] },
             some emptyResult, false)
        else GoResult.ok (none, some emptyResult, false)
      | [] => GoResult.ok (none, some emptyResult, false) }

/-- An A query for foo with recursion desired. -/
def reqFoo : Msg :=
  { emptyMsg with
    id := 77
    recursionDesired := true
    question := [⟨"foo.", typeA, 1⟩] }

/-- A request with recursion desired, for the back-off witness. -/
def rdReq : Msg :=
  { emptyMsg with
    id := 11
    recursionDesired := true
    question := [⟨"example.com.", typeA, 1⟩] }

/-- The recorder channel completely full. -/
def fullRecorderChan : GoChan MetricsInfo :=
  ⟨recorderCapacity, List.replicate recorderCapacity ⟨"10.0.0.1"⟩⟩

/-- Some list of the given type in the set has a matching rule for the
domain. -/
def someMatch (db : RuleDb) (lt : ListType) (lists : List GudgeonList)
    (domain : String) : Prop :=
  ∃ l ∈ lists, ParseType l.ltype = lt ∧ listHasMatch db l domain

/-- The message produced by the CNAME chase in the foo/bar environment: the
address of bar under the original qname foo, with the original request id. -/
def chasedMsg : Msg :=
  { id := 77, response := true, opcode := 0, recursionDesired := true,
    checkingDisabled := false, truncated := false, rcode := 0,
    question := [⟨"foo.", 1, 1⟩],
    answer := [⟨"foo.", 1, 60, some "10.0.0.1"⟩],
    ns := [], extra := [] }

/-! ## Helper lemmas -/

/-- The key computation never touches the backer map: only the partition
index bookkeeping changes. -/
theorem cacheKey_snd_backer (c : GoCache) (p : String) (qs : List Question) :
    ((cacheKey c p qs).snd).backer = c.backer := by
  unfold cacheKey
  dsimp only
  split <;> rfl

/-- Sequencing after an exhausted computation is exhausted. -/
theorem stepBind_none (f : α → EngineStep β) : stepBind none f = none := rfl

/-- In the mutual-CNAME environment the pipeline consumes all fuel on both
halves of the cycle: the embedded Go recursion never returns. -/
theorem envLoop_diverges : ∀ n, performRequestFuel envLoop n (some reqX) = none ∧
    performRequestFuel envLoop n (some reqY) = none := by
  intro n
  induction n with
  | zero => exact ⟨rfl, rfl⟩
  | succ n ih =>
    constructor
    · show (stepBind (stepBind (performRequestFuel envLoop n (some reqY)) _) _ :
        EngineStep (Msg × ResolutionResult)) = none
      rw [ih.2, stepBind_none, stepBind_none]
    · show (stepBind (stepBind (performRequestFuel envLoop n (some reqX)) _) _ :
        EngineStep (Msg × ResolutionResult)) = none
      rw [ih.1, stepBind_none, stepBind_none]

/-- Any non-nil message produced by the CNAME chase has every answer name
rewritten to the first question name of the original request and carries the
original request id, whatever the recursive resolution returned. -/
theorem cname_chase_shape (rec : Option Msg → EngineStep (Msg × ResolutionResult))
    (req resp m : Msg)
    (h : handleCnameResolution rec (some req) (some resp) =
      some (GoResult.ok (some m))) :
    ∃ q qs, req.question = q :: qs ∧
      (∀ rr ∈ m.answer, rr.rname = q.qname) ∧ m.id = req.id := by
  unfold handleCnameResolution at h
  dsimp only at h
  split at h
  next fa tail q qs heqa heqq =>
    refine ⟨q, qs, heqq, ?_⟩
    split at h
    · unfold stepBind at h
      split at h
      · simp at h
      · simp at h
      · dsimp only at h
        split at h
        · have hm := Option.some.inj (GoResult.ok.inj (Option.some.inj h))
          subst hm
          constructor
          · intro rr hrr
            simp only [setReply] at hrr
            rw [List.mem_map] at hrr
            obtain ⟨a, _, ha⟩ := hrr
            rw [← ha]
          · rfl
        · simp at h
    · simp at h
  next =>
    simp at h

/-- Characterization of the indexed lookup: it reports a hit exactly when
the session database holds a non-empty rule row for one of the candidate
lists whose text is one of the domain suffixes. -/
theorem foundInLists_fst_iff (db : RuleDb) (ls : List GudgeonList)
    (domains : List String) :
    (foundInLists db ls domains).fst = true ↔
      ∃ l ∈ ls, ∃ r, (l.shortName, r) ∈ db ∧ r ∈ domains ∧ r ≠ "" := by
  unfold foundInLists
  cases hguard : (decide (ls.length < 1) || decide (domains.length < 1)) with
  | true =>
    simp only [if_pos rfl]
    constructor
    · intro h; cases h
    · rintro ⟨l, hl, r, _, hr, _⟩
      rcases Bool.or_eq_true_iff.mp hguard with hg | hg
      · have hempty : ls = [] :=
          List.length_eq_zero.mp (Nat.lt_one_iff.mp (of_decide_eq_true hg))
        rw [hempty] at hl; cases hl
      · have hempty : domains = [] :=
          List.length_eq_zero.mp (Nat.lt_one_iff.mp (of_decide_eq_true hg))
        rw [hempty] at hr; cases hr
  | false =>
    simp only [Bool.false_eq_true, if_false]
    constructor
    · intro h
      rcases hfind : ((db.filter (fun row =>
          (ls.map (fun l => l.shortName)).contains row.fst &&
            domains.contains row.snd)).find? (fun row => row.snd ≠ "")) with _ | ⟨row⟩
      · rw [hfind] at h; cases h
      · have hmem := List.mem_of_find?_eq_some hfind
        have hpred := List.find?_some hfind
        rw [List.mem_filter, Bool.and_eq_true] at hmem
        obtain ⟨hdb, hsn, hdm⟩ := hmem
        unfold List.contains at hsn hdm
        rw [List.elem_iff] at hsn hdm
        rw [List.mem_map] at hsn
        obtain ⟨l, hl, hlsn⟩ := hsn
        refine ⟨l, hl, row.snd, ?_, hdm, of_decide_eq_true hpred⟩
        rw [hlsn]
        exact hdb
    · rintro ⟨l, hl, r, hdb, hdm, hr⟩
      rcases hfind : ((db.filter (fun row =>
          (ls.map (fun l => l.shortName)).contains row.fst &&
            domains.contains row.snd)).find? (fun row => row.snd ≠ "")) with _ | ⟨row⟩
      · exfalso
        have hnone := List.find?_eq_none.mp hfind (l.shortName, r) ?memfilter
        · exact hnone (decide_eq_true hr)
        · rw [List.mem_filter, Bool.and_eq_true]
          refine ⟨hdb, ?_, ?_⟩
          · unfold List.contains
            rw [List.elem_iff, List.mem_map]
            exact ⟨l, hl, rfl⟩
          · unfold List.contains
            rw [List.elem_iff]
            exact hdm
      · rw [hfind]

/-! ## Claim theorems -/

/-- C1: the claim says a panic during consumer selection, rule match,
resolution or the CNAME chase is caught by performRequest and turned into a
ServFail response.  The recover call at the end of performRequest is not
inside a deferred function, so the panic is never caught: when the resolver
graph panics while resolving a well-formed request, the embedded
performRequest propagates the panic instead of returning any response. -/
theorem C1_panic_escapes_performRequest :
    performRequestFuel envPanic 2 (some panicReq) =
      some (GoResult.panicked "assignment to entry in nil map") := rfl

/-- C2: the claim says a cached response queried at time t1 comes back with
every TTL decremented by the elapsed 30 seconds (60 stored at t0 = 0 should
read back as 30 at t1 = 30).  The code copies the envelope message before
calling adjustTtls on the stored envelope, so the returned message still
carries TTL 60 — only the id is rewritten to the requesting id 9 — while the
envelope kept in the cache is decremented to 30 in place. -/
theorem C2_query_returns_undecayed_ttls :
    (cacheQuery storedCache 30 "default" queryReq).fst =
      some { cacheResp with id := 9 } ∧
    (cacheQuery storedCache 30 "default" queryReq).snd.fst = true ∧
    backerGet (cacheQuery storedCache 30 "default" queryReq).snd.snd.backer
        "1|example.com.|CLASS1|TYPE1" =
      some ⟨{ cacheResp with answer := [⟨"example.com.", 1, 30, some "127.0.0.1"⟩] }, 0⟩ :=
  ⟨by decide, by decide, by decide⟩

/-- C3: FindMatch returns allow exactly when some allow list in the set has
a rule equal to a suffix of the domain in the session database; otherwise it
returns block exactly when some block list has one; otherwise none — an
allow match always dominates any block match. -/
theorem C3_findmatch_allow_dominates (db : RuleDb) (lists : List GudgeonList)
    (domain : String) :
    ((FindMatch (some db) lists domain).fst = Match.allow ↔
      someMatch db ListType.ALLOW lists domain) ∧
    ((FindMatch (some db) lists domain).fst = Match.block ↔
      (¬ someMatch db ListType.ALLOW lists domain ∧
        someMatch db ListType.BLOCK lists domain)) ∧
    ((FindMatch (some db) lists domain).fst = Match.none ↔
      (¬ someMatch db ListType.ALLOW lists domain ∧
        ¬ someMatch db ListType.BLOCK lists domain)) := by
  have hallow : (foundInLists db
      (lists.filter (fun l => ParseType l.ltype = ListType.ALLOW))
      (DomainList domain)).fst = true ↔
      someMatch db ListType.ALLOW lists domain := by
    rw [foundInLists_fst_iff]
    unfold someMatch listHasMatch
    constructor
    · rintro ⟨l, hl, hrest⟩
      rw [List.mem_filter] at hl
      exact ⟨l, hl.1, of_decide_eq_true hl.2, hrest⟩
    · rintro ⟨l, hl, ht, hrest⟩
      exact ⟨l, List.mem_filter.mpr ⟨hl, decide_eq_true ht⟩, hrest⟩
  have hblock : (foundInLists db
      (lists.filter (fun l => !decide (ParseType l.ltype = ListType.ALLOW)))
      (DomainList domain)).fst = true ↔
      someMatch db ListType.BLOCK lists domain := by
    rw [foundInLists_fst_iff]
    unfold someMatch listHasMatch
    constructor
    · rintro ⟨l, hl, hrest⟩
      rw [List.mem_filter] at hl
      have hna : ¬ ParseType l.ltype = ListType.ALLOW := by
        simpa using hl.2
      have hb : ParseType l.ltype = ListType.BLOCK := by
        cases h : ParseType l.ltype
        · exact absurd h hna
        · rfl
      exact ⟨l, hl.1, hb, hrest⟩
    · rintro ⟨l, hl, ht, hrest⟩
      have hna : ¬ ParseType l.ltype = ListType.ALLOW := by
        rw [ht]; intro hc; cases hc
      refine ⟨l, List.mem_filter.mpr ⟨hl, ?_⟩, hrest⟩
      simpa using hna
  unfold FindMatch
  cases hA : (foundInLists db
      (lists.filter (fun l => ParseType l.ltype = ListType.ALLOW))
      (DomainList domain)).fst with
  | true =>
    have hsome := hallow.mp hA
    simp [hA, hsome]
  | false =>
    have hnone : ¬ someMatch db ListType.ALLOW lists domain := by
      intro hs
      have hcontra := hallow.mpr hs
      rw [hA] at hcontra
      cases hcontra
    cases hB : (foundInLists db
        (lists.filter (fun l => !decide (ParseType l.ltype = ListType.ALLOW)))
        (DomainList domain)).fst with
    | true =>
      have hsomeB := hblock.mp hB
      simp [hA, hB, hnone, hsomeB]
    | false =>
      have hnoneB : ¬ someMatch db ListType.BLOCK lists domain := by
        intro hs
        have hcontra := hblock.mpr hs
        rw [hB] at hcontra
        cases hcontra
      simp [hA, hB, hnone, hnoneB]

/-- C4: Store refuses to cache — returning false and leaving the stored
entries untouched — whenever the response is empty, or truncated, or its
computed envelope TTL (minimum answer TTL falling back to ns then extra,
capped at 604800) is zero. -/
theorem C4_store_rejects_uncacheable (c : GoCache) (now : Nat) (partition : String)
    (request response : Msg)
    (h : IsEmptyResponse (some response) = true ∨ response.truncated = true ∨
         envelopeTtl response = 0) :
    (cacheStore c now partition request response).fst = false ∧
    (cacheStore c now partition request response).snd.backer = c.backer := by
  unfold cacheStore
  cases hE : IsEmptyResponse (some response) with
  | true => simp [hE]
  | false =>
    cases hT : response.truncated with
    | true => simp [hE, hT]
    | false =>
      have httl : envelopeTtl response = 0 := by
        rcases h with h | h | h
        · rw [hE] at h; cases h
        · rw [hT] at h; cases h
        · exact h
      simp only [hE, hT, Bool.or_self, Bool.false_eq_true, if_false]
      by_cases hk : (cacheKey c partition request.question).fst = ""
      · simp [hk, cacheKey_snd_backer]
      · simp [hk, httl, cacheKey_snd_backer]

/-- C4 witness: a concrete truncated response is rejected and the cache
contents stay unchanged. -/
theorem C4_store_rejects_uncacheable_witness :
    truncatedResp.truncated = true ∧
    (cacheStore newCache 0 "default" cacheReq truncatedResp).fst = false ∧
    (cacheStore newCache 0 "default" cacheReq truncatedResp).snd.backer =
      newCache.backer :=
  ⟨rfl, C4_store_rejects_uncacheable newCache 0 "default" cacheReq truncatedResp
    (Or.inr (Or.inl rfl))⟩

/-- C5 counterexample: the claim says CNAME loops are prevented by recursion
tracking in the resolution context, so request handling terminates even for
mutually-referencing CNAME records.  The chase calls performRequest again
with a fresh context and no depth bound, so with the two-record CNAME cycle
x to y to x the embedded pipeline never returns for any amount of fuel. -/
theorem C5_cname_loop_diverges : ¬ performRequestTerminates envLoop (some reqX) := by
  rintro ⟨n, hn⟩
  rw [(envLoop_diverges n).1] at hn
  cases hn

/-- C5 amended: the engine re-issues a CNAME answer with the qname replaced
by the CNAME target, but through a fresh recursive performRequest with no
recursion tracking, so mutually-referencing CNAME records make request
handling diverge; on a non-empty chased response the answer names are
rewritten to the original qname and SetReply on the original request
preserves the request id. -/
theorem C5_cname_chase_amended :
    (¬ performRequestTerminates envLoop (some reqX)) ∧
    (∀ (rec : Option Msg → EngineStep (Msg × ResolutionResult)) (req resp m : Msg),
      handleCnameResolution rec (some req) (some resp) =
        some (GoResult.ok (some m)) →
      ∃ q qs, req.question = q :: qs ∧
        (∀ rr ∈ m.answer, rr.rname = q.qname) ∧ m.id = req.id) := by
  constructor
  · rintro ⟨n, hn⟩
    rw [(envLoop_diverges n).1] at hn
    cases hn
  · exact cname_chase_shape

/-- C5 amended witness: in the concrete foo-to-bar chase the produced
message carries the address of bar under the original qname foo and the
original request id 77. -/
theorem C5_cname_chase_amended_witness :
    handleCnameResolution (performRequestFuel envChase 2) (some reqFoo)
      (some (cnameMsg "foo." "bar.")) = some (GoResult.ok (some chasedMsg)) ∧
    (∃ q qs, reqFoo.question = q :: qs ∧
      (∀ rr ∈ chasedMsg.answer, rr.rname = q.qname) ∧ chasedMsg.id = reqFoo.id) :=
  ⟨by decide,
   C5_cname_chase_amended.2 (performRequestFuel envChase 2) reqFoo
     (cnameMsg "foo." "bar.") chasedMsg (by decide)⟩

/-- C6: after an attempt that contacts the peer and hits a transport error
at time t, the source arms its back-off at t plus 15 seconds; every Answer
call strictly before that returns nil response and nil error without network
contact and without changing the state, and at or past that time a
recursion-desired request reaches the network again. -/
theorem C6_backoff_window (s0 : DnsSourceState) (t : Nat) (req0 : Option Msg)
    (hcontact : (dnsAnswer s0 t req0 (Except.error ())).contacted = true) :
    (dnsAnswer s0 t req0 (Except.error ())).state.backoffTime =
      some (t + backoffInterval) ∧
    (∀ t1 (req : Option Msg) (net : Except Unit Msg), t1 < t + backoffInterval →
      dnsAnswer (dnsAnswer s0 t req0 (Except.error ())).state t1 req net =
        { response := none, errOut := false, contacted := false,
          state := (dnsAnswer s0 t req0 (Except.error ())).state }) ∧
    (∀ t2 (req : Msg) (net : Except Unit Msg),
      t + backoffInterval ≤ t2 → req.recursionDesired = true →
      (dnsAnswer (dnsAnswer s0 t req0 (Except.error ())).state t2 (some req)
        net).contacted = true) := by
  have hstate : (dnsAnswer s0 t req0 (Except.error ())).state =
      ⟨some (t + backoffInterval)⟩ := by
    unfold dnsAnswer at hcontact ⊢
    rcases s0 with ⟨_ | bt⟩
    · unfold dnsAnswer.dnsAnswerAfterBackoff at hcontact ⊢
      rcases req0 with _ | req
      · cases hcontact
      · by_cases hrd : req.recursionDesired
        · simp [hrd]
        · simp [hrd] at hcontact
    · dsimp only at hcontact ⊢
      by_cases hlt : t < bt
      · rw [if_pos hlt] at hcontact; cases hcontact
      · rw [if_neg hlt] at hcontact ⊢
        unfold dnsAnswer.dnsAnswerAfterBackoff at hcontact ⊢
        rcases req0 with _ | req
        · cases hcontact
        · by_cases hrd : req.recursionDesired
          · simp [hrd]
          · simp [hrd] at hcontact
  rw [hstate]
  refine ⟨rfl, ?_, ?_⟩
  · intro t1 req net h1
    unfold dnsAnswer
    dsimp only
    rw [if_pos h1]
  · intro t2 req net h2 hrd
    unfold dnsAnswer
    dsimp only
    rw [if_neg (by omega)]
    unfold dnsAnswer.dnsAnswerAfterBackoff
    dsimp only
    rw [hrd]
    cases net <;> rfl

/-- C6 witness: a failed attempt at t equal 100 arms the back-off; a retry
at 110 returns nil nil without contact and a retry at 115 contacts again. -/
theorem C6_backoff_window_witness :
    (dnsAnswer ⟨none⟩ 100 (some rdReq) (Except.error ())).contacted = true ∧
    dnsAnswer (dnsAnswer ⟨none⟩ 100 (some rdReq) (Except.error ())).state 110
        (some rdReq) (Except.ok emptyMsg) =
      { response := none, errOut := false, contacted := false,
        state := (dnsAnswer ⟨none⟩ 100 (some rdReq) (Except.error ())).state } ∧
    (dnsAnswer (dnsAnswer ⟨none⟩ 100 (some rdReq) (Except.error ())).state 115
        (some rdReq) (Except.ok emptyMsg)).contacted = true :=
  ⟨rfl,
   (C6_backoff_window ⟨none⟩ 100 (some rdReq) rfl).2.1 110 (some rdReq)
     (Except.ok emptyMsg) (by decide),
   (C6_backoff_window ⟨none⟩ 100 (some rdReq) rfl).2.2 115 rdReq
     (Except.ok emptyMsg) (by decide) rfl⟩

/-- C7: the claim says a nil request or a request with zero questions is
answered with rcode Refused without crashing.  A request with zero questions
is indeed refused, but a nil request reaches SetReply on the nil pointer
inside the validation branch and panics, and with no deferred recover the
panic unwinds out of performRequest and Handle. -/
theorem C7_nil_request_panics :
    performRequestFuel envBase 1 none = some (GoResult.panicked nilDereference) ∧
    performRequestFuel envBase 1 (some noQuestionMsg) =
      some (GoResult.ok
        ({ emptyMsg with id := 3, response := true, rcode := rcodeRefused },
         { emptyResult with consumer := "default" })) :=
  ⟨rfl, rfl⟩

/-- C8 counterexample: the claim says an enqueue performed while the
recorder buffer holds capacity-many entries drops the entry and returns
without blocking.  The send in RecordQueryMetrics is a plain channel send
with no select/default, so with the buffer full the caller blocks. -/
theorem C8_full_queue_blocks :
    RecordQueryMetrics fullRecorderChan ⟨"10.0.0.2"⟩ = SendOutcome.blocked := by
  show chanSend fullRecorderChan ⟨"10.0.0.2"⟩ = SendOutcome.blocked
  unfold chanSend fullRecorderChan
  rw [List.length_replicate]
  simp [recorderCapacity]

/-- C8 amended: the recorder channel never buffers more than its capacity of
100000 entries, and an enqueue performed while the buffer is full blocks the
calling request pipeline until a receiver drains it — the entry is not
dropped and the call does not return immediately. -/
theorem C8_recorder_queue_amended (buf : List MetricsInfo) (msg : MetricsInfo) :
    (∀ c2, RecordQueryMetrics ⟨recorderCapacity, buf⟩ msg = SendOutcome.sent c2 →
      c2.buf.length ≤ recorderCapacity) ∧
    (buf.length = recorderCapacity →
      RecordQueryMetrics ⟨recorderCapacity, buf⟩ msg = SendOutcome.blocked) := by
  constructor
  · intro c2 h
    unfold RecordQueryMetrics chanSend at h
    dsimp only at h
    by_cases hlt : buf.length < recorderCapacity
    · rw [if_pos hlt] at h
      cases h
      simp only [List.length_append, List.length_cons, List.length_nil]
      omega
    · rw [if_neg hlt] at h
      cases h
  · intro hfull
    unfold RecordQueryMetrics chanSend
    dsimp only
    rw [if_neg (by omega)]

/-- C8 amended witness: enqueueing into the empty recorder buffers one entry
within capacity, and enqueueing into the full recorder blocks. -/
theorem C8_recorder_queue_amended_witness :
    (⟨recorderCapacity, [⟨"10.0.0.1"⟩]⟩ : GoChan MetricsInfo).buf.length ≤
      recorderCapacity ∧
    RecordQueryMetrics ⟨recorderCapacity, List.replicate recorderCapacity ⟨"10.0.0.1"⟩⟩
      ⟨"10.0.0.2"⟩ = SendOutcome.blocked :=
  ⟨(C8_recorder_queue_amended [] ⟨"10.0.0.1"⟩).1
     ⟨recorderCapacity, [⟨"10.0.0.1"⟩]⟩ rfl,
   (C8_recorder_queue_amended (List.replicate recorderCapacity ⟨"10.0.0.1"⟩)
     ⟨"10.0.0.2"⟩).2 (by simp)⟩

/-- C9: the claim says a row inserted with window start 100 and end 160 is
returned with FromTime 100 and AtTime 160.  The row scan reads the first
selected column (FromTime) into the AtTime field and the second (AtTime)
into FromTime, so the returned entry has the window swapped: FromTime 160
and AtTime 100. -/
theorem C9_metrics_query_swaps_window :
    metricsQuery (metricsInsert [] 100 160 "counters") 0 1000 =
      [{ fromTime := 160, atTime := 100, intervalSeconds := 60 }] := rfl

/-- C10: newDNSSource yields no source exactly when the host portion of the
specification — after protocol stripping and port splitting — is not a
literal IP address (parseIP abstracts the net.ParseIP success predicate),
and every constructed source carries a host that parses as a literal IP. -/
theorem C10_source_requires_ip_host (parseIP : String → Bool)
    (sourceAddress : String) :
    (newDNSSource parseIP sourceAddress = none ↔
      parseIP (hostPortion sourceAddress) = false) ∧
    (∀ src, newDNSSource parseIP sourceAddress = some src →
      src.dnsServer = hostPortion sourceAddress ∧
      parseIP src.dnsServer = true) := by
  unfold newDNSSource hostPortion
  cases h : parseIP (parseHostPort (parseProtocolSplit sourceAddress).fst).fst with
  | true =>
    constructor
    · simp [h]
    · intro src hsrc
      dsimp only at hsrc
      rw [if_pos h] at hsrc
      obtain rfl := (Option.some.inj hsrc).symm
      exact ⟨rfl, h⟩
  | false =>
    constructor
    · simp [h]
    · intro src hsrc
      dsimp only at hsrc
      rw [if_neg (by simp [h])] at hsrc
      cases hsrc

end Gudgeon
